import Mathlib

/-!
A shallow embedding of `src/data_cleaning.py` (a pandas-based CSV cleaning
pipeline) and proofs of the specification claims about it.

Modelling conventions:
* A pandas `DataFrame` is a list of named columns plus a row count; each
  column carries the dtype pandas would infer (`numeric` for `int64`/`float64`,
  `text` for `object`) and one cell per row.
* A cell is a numeric value, a string, or missing (`NaN`/`None`).
  Numeric literals are modelled as integers (`pd.to_numeric` parsing is
  modelled for integer literals; the claims under study only depend on
  parse success/failure and on the sign of the result).
* Strings are `List Char`, so that Python's per-character string operations
  (`strip`, `lower`, `replace`) become list operations.
* The filesystem (treated by the spec as an external collaborator) is a map
  from paths to tables; `Except` models Python exceptions.
-/

namespace DataClean

/-- Whitespace characters stripped by Python's `str.strip` (ASCII range). -/
def isSpace (c : Char) : Bool :=
  c = ' ' || c = '\t' || c = '\n' || c = '\r' || c = '\x0b' || c = '\x0c'

/-- ASCII lowercasing of one character, as Python's `str.lower` acts on the
ASCII column names used here. -/
def lowerChar (c : Char) : Char :=
  if 65 ≤ c.toNat ∧ c.toNat ≤ 90 then Char.ofNat (c.toNat + 32) else c

/-- Is the character an ASCII uppercase letter (`A`–`Z`)? -/
def isUpperChar (c : Char) : Bool :=
  decide (65 ≤ c.toNat) && decide (c.toNat ≤ 90)

/-- Python `str.strip`: drop leading and trailing whitespace. -/
def pyStrip (s : List Char) : List Char :=
  ((s.dropWhile isSpace).reverse.dropWhile isSpace).reverse

/-- Python `str.lower` (ASCII). -/
def pyLower (s : List Char) : List Char := s.map lowerChar

/-- `Series.str.replace` with a single-character pattern and replacement:
replace every occurrence of `p` by `r`. -/
def replaceChar (p r : Char) (s : List Char) : List Char :=
  s.map (fun c => if c = p then r else c)

/-- Does `pat` occur as a prefix of `s`? -/
def startsWith : List Char → List Char → Bool
  | [], _ => true
  | _ :: _, [] => false
  | p :: ps, c :: cs => p == c && startsWith ps cs

/-- Left-to-right, non-overlapping replacement of every occurrence of the
substring `pat` by `rep` (Python `str.replace` / `Series.str.replace`).
The fuel argument starts at the string length; every step consumes at least
one character, so the fuel never runs out. -/
def replaceSubGo (pat rep : List Char) : Nat → List Char → List Char
  | _, [] => []
  | 0, s => s
  | fuel + 1, c :: cs =>
    if startsWith pat (c :: cs) then
      rep ++ replaceSubGo pat rep fuel ((c :: cs).drop pat.length)
    else
      c :: replaceSubGo pat rep fuel cs

/-- Replace every occurrence of the substring `pat` by `rep` in `s`. -/
def replaceSub (pat rep s : List Char) : List Char :=
  replaceSubGo pat rep s.length s

/-- One cell of a table: a numeric value, a string, or missing (`NaN`). -/
inductive Cell where
  | num (x : Int)
  | str (s : List Char)
  | na
deriving DecidableEq, Repr

/-- The pandas-inferred dtype of a column: `int64`/`float64` or `object`. -/
inductive Dtype where
  | numeric
  | text
deriving DecidableEq, Repr

/-- A named column: its label, inferred dtype, and one cell per row. -/
structure Col where
  name : List Char
  dtype : Dtype
  cells : List Cell
deriving DecidableEq, Repr

/-- An in-memory table: a row count and an ordered list of columns
(each column is expected to carry `nrows` cells). -/
structure DataFrame where
  nrows : Nat
  cols : List Col
deriving DecidableEq, Repr

/-- `clean_column_names`: one column label after
`.str.strip().str.lower().str.replace(" ", "_").str.replace("-", "_")`. -/
def cleanName (s : List Char) : List Char :=
  replaceChar '-' '_' (replaceChar ' ' '_' (pyLower (pyStrip s)))

/-- `clean_column_names` from the source: normalize every column label. -/
def clean_column_names (df : DataFrame) : DataFrame :=
  { df with cols := df.cols.map (fun c => { c with name := cleanName c.name }) }

/-- `Series.str.strip` on one cell of an `object` column: strings are
stripped; non-string values (including numbers stored in an `object`
column) become `NaN` under the `.str` accessor; `NaN` stays `NaN`. -/
def stripCell : Cell → Cell
  | Cell.str s => Cell.str (pyStrip s)
  | Cell.num _ => Cell.na
  | Cell.na => Cell.na

/-- `strip_text_fields` from the source: strip every `object` column. -/
def strip_text_fields (df : DataFrame) : DataFrame :=
  { df with cols := df.cols.map (fun c =>
      if c.dtype = Dtype.text then { c with cells := c.cells.map stripCell } else c) }

/-- `fillna(0)` on one cell of a numeric column. -/
def fillZeroCell (x : Cell) : Cell :=
  if x = Cell.na then Cell.num 0 else x

/-- `fillna(method="ffill")` along one column: a missing cell takes the
value of the nearest preceding non-missing cell (tracked in `prev`,
initially missing). -/
def ffillGo (prev : Cell) : List Cell → List Cell
  | [] => []
  | c :: cs => if c = Cell.na then prev :: ffillGo prev cs else c :: ffillGo c cs

/-- The missing-value policy applied to one column, by inferred dtype:
`fillna(0)` for numeric columns, `fillna(method="ffill")` for text
(`object`) columns. -/
def fillCol (c : Col) : Col :=
  match c.dtype with
  | Dtype.numeric => { c with cells := c.cells.map fillZeroCell }
  | Dtype.text => { c with cells := ffillGo Cell.na c.cells }

/-- `handle_missing_values` from the source: numeric columns get
`fillna(0)`, text (`object`) columns get forward-fill. -/
def handle_missing_values (df : DataFrame) : DataFrame :=
  { df with cols := df.cols.map fillCol }

/-- The column label `"price"`. -/
def priceName : List Char := "price".data

/-- The column label `"quantity"`. -/
def quantityName : List Char := "quantity".data

/-- The misspelled column label `"quanitity"`. -/
def typoName : List Char := "quanitity".data

/-- The typo fix `df.columns.str.replace("quanitity", "quantity")` applied
to one column label: a substring replacement, not an exact-name rename. -/
def fixTypoName (n : List Char) : List Char :=
  replaceSub typoName quantityName n

/-- The typo fix applied to one column. -/
def fixTypoCol (c : Col) : Col :=
  { c with name := fixTypoName c.name }

/-- The typo fix applied to the whole table. -/
def fixTypo (df : DataFrame) : DataFrame :=
  { df with cols := df.cols.map fixTypoCol }

/-- Value of an ASCII digit. -/
def digitVal (c : Char) : Nat := c.toNat - 48

/-- Parse a nonempty digit string into a number (accumulator form);
fails on any non-digit character. -/
def digitsValGo (acc : Nat) : List Char → Option Nat
  | [] => some acc
  | c :: cs => if c.isDigit then digitsValGo (10 * acc + digitVal c) cs else none

/-- Parse an optionally signed integer literal; anything else fails.
Models `pd.to_numeric(..., errors="coerce")` on string cells, restricted
to integer literals. -/
def parseNum (s : List Char) : Option Int :=
  match s with
  | [] => none
  | '-' :: rest =>
    if rest = [] then none else (digitsValGo 0 rest).map (fun n => -(n : Int))
  | '+' :: rest =>
    if rest = [] then none else (digitsValGo 0 rest).map (fun n => (n : Int))
  | _ => (digitsValGo 0 s).map (fun n => (n : Int))

/-- `pd.to_numeric(errors="coerce")` on one cell: numbers pass through,
strings are parsed (unparseable becomes missing), missing stays missing. -/
def toNumericCell : Cell → Cell
  | Cell.num x => Cell.num x
  | Cell.str s =>
    match parseNum s with
    | some x => Cell.num x
    | none => Cell.na
  | Cell.na => Cell.na

/-- Is the label `price` or `quantity`? -/
def isPQ (n : List Char) : Bool := n == priceName || n == quantityName

/-- `df[col] = pd.to_numeric(df[col], errors="coerce")` for
`col` in `["price", "quantity"]`, applied to one column. -/
def coerceCol (c : Col) : Col :=
  if isPQ c.name then
    { c with dtype := Dtype.numeric, cells := c.cells.map toNumericCell }
  else c

/-- Keep the cells at positions where the mask is `true`
(pandas boolean row selection). -/
def applyMask : List Bool → List Cell → List Cell
  | true :: bs, x :: xs => x :: applyMask bs xs
  | false :: bs, _ :: xs => applyMask bs xs
  | _, _ => []

/-- A row mask: start from all-`true` and, for every column satisfying
`cond`, require `p` of that column's cell in the row. -/
def combineMask (cond : Col → Bool) (p : Cell → Bool) (df : DataFrame) : List Bool :=
  df.cols.foldl
    (fun m c => if cond c then List.zipWith (fun a b => a && b) m (c.cells.map p) else m)
    (List.replicate df.nrows true)

/-- Keep only the rows selected by the mask, in every column. -/
def filterByMask (mask : List Bool) (df : DataFrame) : DataFrame :=
  { nrows := mask.count true,
    cols := df.cols.map (fun c => { c with cells := applyMask mask c.cells }) }

/-- `col in df.columns`. -/
def hasCol (df : DataFrame) (n : List Char) : Bool :=
  df.cols.any (fun c => c.name == n)

/-- Is the cell present (not `NaN`)? -/
def notNaCell (x : Cell) : Bool := !(x == Cell.na)

/-- The pandas comparison `cell >= 0`: true exactly for a non-negative
number (`NaN >= 0` is false). -/
def geZeroCell : Cell → Bool
  | Cell.num v => decide (0 ≤ v)
  | Cell.str _ => false
  | Cell.na => false

/-- One iteration of the final loop of `remove_invalid_rows`:
`if col in df.columns: df = df[df[col] >= 0]`. -/
def dropNegStep (d : DataFrame) (n : List Char) : DataFrame :=
  if hasCol d n then filterByMask (combineMask (fun c => c.name == n) geZeroCell d) d else d

/-- The first two statements of `remove_invalid_rows`: the header typo fix
followed by `pd.to_numeric(..., errors="coerce")` on whichever of `price`
and `quantity` are present. -/
def rirCoerced (df : DataFrame) : DataFrame :=
  { fixTypo df with cols := (fixTypo df).cols.map coerceCol }

/-- The `dropna` statement of `remove_invalid_rows`:
`cols_to_check = [c for c in ["price", "quantity"] if c in df.columns]`,
and `df = df.dropna(subset=cols_to_check)` when that list is nonempty. -/
def rirDropNa (df : DataFrame) : DataFrame :=
  if ([priceName, quantityName].filter (fun n => hasCol (rirCoerced df) n)).isEmpty then
    rirCoerced df
  else
    filterByMask
      (combineMask
        (fun c =>
          ([priceName, quantityName].filter (fun n => hasCol (rirCoerced df) n)).any
            (fun n => c.name == n))
        notNaCell (rirCoerced df))
      (rirCoerced df)

/-- `remove_invalid_rows` from the source: fix the `quanitity` header typo,
coerce `price`/`quantity` to numeric (unparseable becomes missing), drop
rows with missing `price`/`quantity`, then drop rows with a negative
value in either column. -/
def remove_invalid_rows (df : DataFrame) : DataFrame :=
  [priceName, quantityName].foldl dropNegStep (rirDropNa df)

/-- A file path, as a character list. -/
abbrev Path := List Char

/-- Python's `FileNotFoundError`, the only exception the pipeline itself
raises (raised by `load_data` for a missing input, and by
`os.makedirs("")` for an empty directory name). -/
inductive PipeError where
  | notFound (path : Path)
deriving DecidableEq, Repr

/-- The external filesystem: readable tabular files by path. -/
structure FileSystem where
  files : List (Path × DataFrame)
deriving DecidableEq, Repr

/-- Look a path up in the filesystem. -/
def lookupFile : List (Path × DataFrame) → Path → Option DataFrame
  | [], _ => none
  | (q, d) :: rest, p => if q = p then some d else lookupFile rest p

/-- `load_data` from the source: raise `FileNotFoundError` if the path does
not exist, otherwise read the table. -/
def load_data (fs : FileSystem) (file_path : Path) : Except PipeError DataFrame :=
  match lookupFile fs.files file_path with
  | none => Except.error (PipeError.notFound file_path)
  | some df => Except.ok df

/-- Index of the last occurrence of `c`, if any (`str.rfind`). -/
def rfindIdx (c : Char) : List Char → Option Nat
  | [] => none
  | x :: xs =>
    match rfindIdx c xs with
    | some i => some (i + 1)
    | none => if x = c then some 0 else none

/-- Drop trailing `/` characters (`str.rstrip("/")`). -/
def rstripSlash (l : List Char) : List Char :=
  (l.reverse.dropWhile (fun c => c == '/')).reverse

/-- `os.path.dirname` (POSIX): everything up to the last `/`, with trailing
slashes stripped unless the head is all slashes; empty when there is no `/`. -/
def dirname (p : Path) : Path :=
  match rfindIdx '/' p with
  | none => []
  | some i =>
    let head := p.take (i + 1)
    if head.any (fun c => !(c == '/')) then rstripSlash head else head

/-- `save_cleaned_data` from the source:
`os.makedirs(os.path.dirname(output_path), exist_ok=True)` followed by
`df.to_csv(output_path, index=False)`.  `os.makedirs("", exist_ok=True)`
raises `FileNotFoundError('')`, so an output path with an empty directory
component fails before anything is written; otherwise the directory is
created as needed and the write succeeds (the filesystem itself is an
external collaborator assumed writable, spec §1).  The `ok` value is the
single file written. -/
def save_cleaned_data (df : DataFrame) (output_path : Path) :
    Except PipeError (Path × DataFrame) :=
  if dirname output_path = [] then
    Except.error (PipeError.notFound (dirname output_path))
  else
    Except.ok (output_path, df)

/-- `clean_pipeline` from the source: load, then the four cleaning steps in
fixed order, then save.  An `error` result models an exception propagating
to the caller with no output file written; an `ok` result carries the one
file written. -/
def clean_pipeline (fs : FileSystem) (raw_path cleaned_path : Path) :
    Except PipeError (Path × DataFrame) :=
  match load_data fs raw_path with
  | Except.error e => Except.error e
  | Except.ok df =>
    save_cleaned_data
      (remove_invalid_rows (handle_missing_values (strip_text_fields (clean_column_names df))))
      cleaned_path

/-! ### Concrete example tables (used to instantiate the theorems below) -/

/-- A text column `[None, "A", None, "B"]` (the forward-fill scenario of
spec §8). -/
def exampleTextCol : Col :=
  { name := "category".data, dtype := Dtype.text,
    cells := [Cell.na, Cell.str "A".data, Cell.na, Cell.str "B".data] }

/-- A one-column table around `exampleTextCol`. -/
def exampleTextDf : DataFrame := { nrows := 4, cols := [exampleTextCol] }

/-- A `price` column holding the string `"3"`. -/
def examplePriceCol : Col :=
  { name := "price".data, dtype := Dtype.text, cells := [Cell.str "3".data] }

/-- A one-column table around `examplePriceCol`. -/
def examplePriceDf : DataFrame := { nrows := 1, cols := [examplePriceCol] }

/-- A column with the misspelled header `quanitity`. -/
def exampleTypoCol : Col :=
  { name := "quanitity".data, dtype := Dtype.text, cells := [Cell.str "4".data] }

/-- A one-column table around `exampleTypoCol`. -/
def exampleTypoDf : DataFrame := { nrows := 1, cols := [exampleTypoCol] }

/-- A numeric column containing a missing value. -/
def exampleNumCol : Col :=
  { name := "amount".data, dtype := Dtype.numeric, cells := [Cell.na, Cell.num 7] }

/-- A one-column table around `exampleNumCol`. -/
def exampleNumDf : DataFrame := { nrows := 2, cols := [exampleNumCol] }

/-- A column whose header needs normalisation (spec §8 scenario). -/
def exampleNameCol : Col :=
  { name := " Unit Price ".data, dtype := Dtype.numeric, cells := [Cell.num 1] }

/-- A one-column table around `exampleNameCol`. -/
def exampleNameDf : DataFrame := { nrows := 1, cols := [exampleNameCol] }

/-- A mixed table used for the frame/row-count checks. -/
def exampleMixedCol : Col :=
  { name := "note".data, dtype := Dtype.text, cells := [Cell.str " x ".data, Cell.na] }

/-- A one-column table around `exampleMixedCol`. -/
def exampleMixedDf : DataFrame := { nrows := 2, cols := [exampleMixedCol] }

/-- An empty filesystem. -/
def emptyFs : FileSystem := { files := [] }

/-- The default input path of the script. -/
def examplePath : Path := "data/raw/sales_data_raw.csv".data

/-- The default output path of the script. -/
def outPath : Path := "data/processed/sales_data_clean.csv".data

/-- A filesystem holding exactly the default input file. -/
def oneFs : FileSystem := { files := [(examplePath, exampleTextDf)] }

end DataClean

namespace DataClean

/-! ### Character-level lemmas -/

theorem toNat_ofNat_of_lt {n : Nat} (h : n < 55296) : (Char.ofNat n).toNat = n := by
  have hv : n.isValidChar := Or.inl h
  rw [Char.ofNat, dif_pos hv]
  rfl

theorem char_toNat_inj {a b : Char} (h : a.toNat = b.toNat) : a = b := by
  have ha := Char.ofNat_toNat a
  rw [h, Char.ofNat_toNat b] at ha
  exact ha.symm

theorem lowerChar_toNat (c : Char) :
    (lowerChar c).toNat = if 65 ≤ c.toNat ∧ c.toNat ≤ 90 then c.toNat + 32 else c.toNat := by
  unfold lowerChar
  split
  case isTrue h => exact toNat_ofNat_of_lt (by omega)
  case isFalse h => rfl

theorem isSpace_iff (c : Char) :
    isSpace c = true ↔
      c.toNat = 32 ∨ c.toNat = 9 ∨ c.toNat = 10 ∨ c.toNat = 13 ∨ c.toNat = 11 ∨ c.toNat = 12 := by
  unfold isSpace
  simp only [Bool.or_eq_true, decide_eq_true_eq]
  constructor
  · rintro (((((h | h) | h) | h) | h) | h) <;> subst h <;> simp
  · rintro (h | h | h | h | h | h) <;>
      first
      | (left; left; left; left; left; exact char_toNat_inj (by rw [h]; rfl))
      | (left; left; left; left; right; exact char_toNat_inj (by rw [h]; rfl))
      | (left; left; left; right; exact char_toNat_inj (by rw [h]; rfl))
      | (left; left; right; exact char_toNat_inj (by rw [h]; rfl))
      | (left; right; exact char_toNat_inj (by rw [h]; rfl))
      | (right; exact char_toNat_inj (by rw [h]; rfl))

theorem isUpperChar_eq_false_iff (c : Char) :
    isUpperChar c = false ↔ ¬(65 ≤ c.toNat ∧ c.toNat ≤ 90) := by
  unfold isUpperChar
  rw [← Bool.not_eq_true, Bool.and_eq_true, decide_eq_true_eq, decide_eq_true_eq]

theorem isUpperChar_lowerChar (c : Char) : isUpperChar (lowerChar c) = false := by
  rw [isUpperChar_eq_false_iff, lowerChar_toNat]
  split <;> omega

theorem isSpace_lowerChar (c : Char) (h : isSpace c = false) : isSpace (lowerChar c) = false := by
  rw [← Bool.not_eq_true] at h ⊢
  rw [isSpace_iff] at h ⊢
  rw [lowerChar_toNat]
  split <;> omega

theorem lowerChar_toNat_not_upper (c : Char) :
    ¬(65 ≤ (lowerChar c).toNat ∧ (lowerChar c).toNat ≤ 90) := by
  rw [lowerChar_toNat]; split <;> omega

theorem lowerChar_eq_self {c : Char} (h : ¬(65 ≤ c.toNat ∧ c.toNat ≤ 90)) :
    lowerChar c = c := by
  unfold lowerChar; rw [if_neg h]

theorem lowerChar_idem (c : Char) : lowerChar (lowerChar c) = lowerChar c :=
  lowerChar_eq_self (lowerChar_toNat_not_upper c)

/-! ### List helper lemmas -/

theorem head?_dropWhile {α : Type} (p : α → Bool) (l : List α) {x : α}
    (h : (l.dropWhile p).head? = some x) : p x = false := by
  induction l with
  | nil => simp [List.dropWhile] at h
  | cons c cs ih =>
    rw [List.dropWhile_cons] at h
    by_cases hc : p c
    · rw [if_pos hc] at h; exact ih h
    · rw [if_neg hc] at h
      simp only [List.head?_cons, Option.some.injEq] at h
      subst h
      exact Bool.not_eq_true _ |>.mp hc

theorem getLast?_dropWhile {α : Type} (p : α → Bool) (l : List α)
    (h : l.dropWhile p ≠ []) : (l.dropWhile p).getLast? = l.getLast? := by
  induction l with
  | nil => simp [List.dropWhile] at h
  | cons c cs ih =>
    rw [List.dropWhile_cons] at h ⊢
    by_cases hc : p c
    · rw [if_pos hc] at h ⊢
      rw [ih h]
      cases hcs : cs with
      | nil => subst hcs; simp [List.dropWhile] at h
      | cons d ds => rw [List.getLast?_cons_cons]
    · rw [if_neg hc]

theorem dropWhile_eq_self {α : Type} (p : α → Bool) (l : List α)
    (h : ∀ x, l.head? = some x → p x = false) : l.dropWhile p = l := by
  cases l with
  | nil => rfl
  | cons c cs =>
    rw [List.dropWhile_cons, if_neg]
    rw [h c rfl]
    exact Bool.false_ne_true

theorem map_eq_self {α : Type} (f : α → α) (l : List α) (h : ∀ x ∈ l, f x = x) :
    l.map f = l := by
  induction l with
  | nil => rfl
  | cons c cs ih =>
    rw [List.map_cons, h c (List.mem_cons_self c cs),
      ih (fun x hx => h x (List.mem_cons_of_mem c hx))]

/-! ### Column-name normalisation lemmas -/

theorem pyStrip_head? {s : List Char} {x : Char} (h : (pyStrip s).head? = some x) :
    isSpace x = false := by
  unfold pyStrip at h
  rw [List.head?_reverse] at h
  have hne : (s.dropWhile isSpace).reverse.dropWhile isSpace ≠ [] := by
    intro hnil; rw [hnil] at h; simp at h
  rw [getLast?_dropWhile _ _ hne, List.getLast?_reverse] at h
  exact head?_dropWhile isSpace s h

theorem pyStrip_getLast? {s : List Char} {x : Char} (h : (pyStrip s).getLast? = some x) :
    isSpace x = false := by
  unfold pyStrip at h
  rw [List.getLast?_reverse] at h
  exact head?_dropWhile isSpace _ h

theorem pyStrip_eq_self {s : List Char}
    (h1 : ∀ x, s.head? = some x → isSpace x = false)
    (h2 : ∀ x, s.getLast? = some x → isSpace x = false) : pyStrip s = s := by
  unfold pyStrip
  rw [dropWhile_eq_self isSpace s h1]
  rw [dropWhile_eq_self isSpace s.reverse
    (by intro x hx; rw [List.head?_reverse] at hx; exact h2 x hx)]
  exact List.reverse_reverse s

theorem replace_step_not_space {p : Char} {y : Char} (h : isSpace y = false) :
    isSpace (if y = p then '_' else y) = false := by
  by_cases hy : y = p
  · rw [if_pos hy]; decide
  · rw [if_neg hy]; exact h

theorem replace_step_not_upper {p : Char} {y : Char} (h : isUpperChar y = false) :
    isUpperChar (if y = p then '_' else y) = false := by
  by_cases hy : y = p
  · rw [if_pos hy]; decide
  · rw [if_neg hy]; exact h

theorem replace_step_ne {p r : Char} {y : Char} (hr : r ≠ p) : (if y = p then r else y) ≠ p := by
  by_cases hy : y = p
  · rw [if_pos hy]; exact hr
  · rw [if_neg hy]; exact hy

theorem replace_step_pres_ne {p r y q : Char} (hy : y ≠ q) (hr : r ≠ q) :
    (if y = p then r else y) ≠ q := by
  by_cases hp : y = p
  · rw [if_pos hp]; exact hr
  · rw [if_neg hp]; exact hy

theorem replace_step_lower_fixed {p : Char} {y : Char} (h : lowerChar y = y) :
    lowerChar (if y = p then '_' else y) = (if y = p then '_' else y) := by
  by_cases hy : y = p
  · rw [if_pos hy]; decide
  · rw [if_neg hy]; exact h

theorem cleanName_char_props {s : List Char} {x : Char} (h : x ∈ cleanName s) :
    isUpperChar x = false ∧ x ≠ ' ' ∧ x ≠ '-' ∧ lowerChar x = x := by
  unfold cleanName replaceChar pyLower at h
  simp only [List.mem_map] at h
  obtain ⟨y, ⟨z, ⟨c, hc, hz⟩, hy⟩, hx⟩ := h
  subst hz hy hx
  refine ⟨?_, ?_, ?_, ?_⟩
  · exact replace_step_not_upper (replace_step_not_upper (isUpperChar_lowerChar c))
  · exact replace_step_pres_ne (replace_step_ne (by decide)) (by decide)
  · exact replace_step_ne (by decide)
  · exact replace_step_lower_fixed (replace_step_lower_fixed (lowerChar_idem c))

theorem cleanName_head?_not_space {s : List Char} {x : Char}
    (h : (cleanName s).head? = some x) : isSpace x = false := by
  unfold cleanName replaceChar pyLower at h
  rw [List.head?_map, List.head?_map, List.head?_map] at h
  cases hh : (pyStrip s).head? with
  | none => rw [hh] at h; simp at h
  | some c =>
    rw [hh] at h
    simp only [Option.map_some'] at h
    simp only [Option.some.injEq] at h
    subst h
    exact replace_step_not_space (replace_step_not_space (isSpace_lowerChar c (pyStrip_head? hh)))

theorem cleanName_getLast?_not_space {s : List Char} {x : Char}
    (h : (cleanName s).getLast? = some x) : isSpace x = false := by
  unfold cleanName replaceChar pyLower at h
  rw [List.getLast?_map, List.getLast?_map, List.getLast?_map] at h
  cases hh : (pyStrip s).getLast? with
  | none => rw [hh] at h; simp at h
  | some c =>
    rw [hh] at h
    simp only [Option.map_some'] at h
    simp only [Option.some.injEq] at h
    subst h
    exact replace_step_not_space
      (replace_step_not_space (isSpace_lowerChar c (pyStrip_getLast? hh)))

theorem cleanName_idem (s : List Char) : cleanName (cleanName s) = cleanName s := by
  have hprops := fun x (hx : x ∈ cleanName s) => cleanName_char_props hx
  have h1 : pyStrip (cleanName s) = cleanName s :=
    pyStrip_eq_self (fun x hx => cleanName_head?_not_space hx)
      (fun x hx => cleanName_getLast?_not_space hx)
  have h2 : pyLower (cleanName s) = cleanName s :=
    map_eq_self lowerChar _ (fun x hx => (hprops x hx).2.2.2)
  have h3 : replaceChar ' ' '_' (cleanName s) = cleanName s :=
    map_eq_self _ _ (fun x hx => if_neg ((hprops x hx).2.1))
  have h4 : replaceChar '-' '_' (cleanName s) = cleanName s :=
    map_eq_self _ _ (fun x hx => if_neg ((hprops x hx).2.2.1))
  calc cleanName (cleanName s)
      = replaceChar '-' '_' (replaceChar ' ' '_' (pyLower (pyStrip (cleanName s)))) := rfl
    _ = cleanName s := by rw [h1, h2, h3, h4]

end DataClean

namespace DataClean

/-! ### Forward-fill lemmas -/

theorem getLastD_cons (c : Cell) (l : List Cell) (d : Cell) :
    ((c :: l).getLast?).getD d = (l.getLast?).getD c := by
  cases l with
  | nil => rfl
  | cons e es =>
    rw [List.getLast?_cons_cons]
    cases hg : (e :: es).getLast? with
    | none => simp at hg
    | some v => rfl

theorem ffillGo_length (cells : List Cell) : ∀ prev, (ffillGo prev cells).length = cells.length := by
  induction cells with
  | nil => intro prev; rfl
  | cons c cs ih =>
    intro prev
    by_cases hc : c = Cell.na
    · show (if c = Cell.na then prev :: ffillGo prev cs else c :: ffillGo c cs).length = _
      rw [if_pos hc]
      simp [ih]
    · show (if c = Cell.na then prev :: ffillGo prev cs else c :: ffillGo c cs).length = _
      rw [if_neg hc]
      simp [ih]

theorem ffillGo_getElem? (cells : List Cell) : ∀ (prev : Cell) (i : Nat) (x : Cell),
    cells[i]? = some x →
    (ffillGo prev cells)[i]? =
      some (if x = Cell.na
        then (((cells.take i).filter (fun y => !(y == Cell.na))).getLast?).getD prev
        else x) := by
  induction cells with
  | nil => intro prev i x h; simp at h
  | cons c cs ih =>
    intro prev i x h
    have hun : ffillGo prev (c :: cs)
        = if c = Cell.na then prev :: ffillGo prev cs else c :: ffillGo c cs := rfl
    cases i with
    | zero =>
      rw [List.getElem?_cons_zero, Option.some.injEq] at h
      subst h
      rw [hun]
      by_cases hc : c = Cell.na
      · rw [if_pos hc, if_pos hc]
        simp
      · rw [if_neg hc, if_neg hc]
        simp
    | succ n =>
      rw [List.getElem?_cons_succ] at h
      rw [hun]
      by_cases hc : c = Cell.na
      · rw [if_pos hc, List.getElem?_cons_succ, ih prev n x h]
        subst hc
        rw [List.take_succ_cons, List.filter_cons]
        simp
      · rw [if_neg hc, List.getElem?_cons_succ, ih c n x h]
        rw [List.take_succ_cons, List.filter_cons]
        have hpc : (!(c == Cell.na)) = true := by
          simp only [Bool.not_eq_true', beq_eq_false_iff_ne]
          exact hc
        rw [if_pos hpc]
        by_cases hx : x = Cell.na
        · rw [if_pos hx, if_pos hx, getLastD_cons]
        · rw [if_neg hx, if_neg hx]

end DataClean

namespace DataClean

/-! ### Row-mask lemmas -/

theorem applyMask_getElem? {m : List Bool} {xs : List Cell} {x : Cell}
    (h : x ∈ applyMask m xs) : ∃ i : Nat, m[i]? = some true ∧ xs[i]? = some x := by
  induction m generalizing xs with
  | nil => simp [applyMask] at h
  | cons b bs ih =>
    cases xs with
    | nil => cases b <;> simp [applyMask] at h
    | cons y ys =>
      cases b with
      | true =>
        rw [show applyMask (true :: bs) (y :: ys) = y :: applyMask bs ys from rfl] at h
        rcases List.mem_cons.mp h with h | h
        · subst h; exact ⟨0, by simp, by simp⟩
        · obtain ⟨i, h1, h2⟩ := ih h
          exact ⟨i + 1, by simpa, by simpa⟩
      | false =>
        rw [show applyMask (false :: bs) (y :: ys) = applyMask bs ys from rfl] at h
        obtain ⟨i, h1, h2⟩ := ih h
        exact ⟨i + 1, by simpa, by simpa⟩

theorem applyMask_sublist (m : List Bool) (xs : List Cell) :
    List.Sublist (applyMask m xs) xs := by
  induction m generalizing xs with
  | nil => cases xs <;> simp [applyMask]
  | cons b bs ih =>
    cases xs with
    | nil => simp [applyMask]
    | cons y ys =>
      cases b with
      | true =>
        rw [show applyMask (true :: bs) (y :: ys) = y :: applyMask bs ys from rfl]
        exact List.Sublist.cons₂ y (ih ys)
      | false =>
        rw [show applyMask (false :: bs) (y :: ys) = applyMask bs ys from rfl]
        exact List.Sublist.cons y (ih ys)

theorem zipWith_and_getElem? {m1 m2 : List Bool} {i : Nat}
    (h : (List.zipWith (fun a b => a && b) m1 m2)[i]? = some true) :
    m1[i]? = some true ∧ m2[i]? = some true := by
  induction m1 generalizing m2 i with
  | nil => simp [List.zipWith] at h
  | cons a as ih =>
    cases m2 with
    | nil => simp [List.zipWith] at h
    | cons b bs =>
      cases i with
      | zero =>
        rw [List.zipWith_cons_cons, List.getElem?_cons_zero, Option.some.injEq] at h
        obtain ⟨h1, h2⟩ := Bool.and_eq_true a b |>.mp h
        subst h1; subst h2
        exact ⟨by simp, by simp⟩
      | succ n =>
        rw [List.zipWith_cons_cons, List.getElem?_cons_succ] at h
        obtain ⟨h1, h2⟩ := ih h
        exact ⟨by simpa, by simpa⟩

theorem foldlMask_init_true (cond : Col → Bool) (p : Cell → Bool) :
    ∀ (cols : List Col) (init : List Bool) (i : Nat),
      (cols.foldl (fun m d => if cond d then List.zipWith (fun a b => a && b) m (d.cells.map p) else m) init)[i]? = some true →
      init[i]? = some true := by
  intro cols
  induction cols with
  | nil => intro init i h; exact h
  | cons d ds ih =>
    intro init i h
    rw [List.foldl_cons] at h
    have h2 := ih _ i h
    by_cases hc : cond d
    · rw [if_pos hc] at h2; exact (zipWith_and_getElem? h2).1
    · rw [if_neg hc] at h2; exact h2

theorem foldlMask_col_true (cond : Col → Bool) (p : Cell → Bool) (c : Col) (i : Nat) :
    ∀ (cols : List Col) (init : List Bool), c ∈ cols → cond c = true →
      (cols.foldl (fun m d => if cond d then List.zipWith (fun a b => a && b) m (d.cells.map p) else m) init)[i]? = some true →
      (c.cells.map p)[i]? = some true := by
  intro cols
  induction cols with
  | nil => intro init hc; simp at hc
  | cons d ds ih =>
    intro init hc hcond h
    rw [List.foldl_cons] at h
    rcases List.mem_cons.mp hc with h1 | h1
    · subst h1
      have h2 := foldlMask_init_true cond p ds _ i h
      rw [if_pos hcond] at h2
      exact (zipWith_and_getElem? h2).2
    · exact ih _ h1 hcond h

theorem combineMask_col_true {cond : Col → Bool} {p : Cell → Bool} {df : DataFrame} {c : Col}
    (hc : c ∈ df.cols) (hcond : cond c = true) {i : Nat}
    (h : (combineMask cond p df)[i]? = some true) :
    (c.cells.map p)[i]? = some true :=
  foldlMask_col_true cond p c i df.cols _ hc hcond h

theorem foldlMask_length_le (cond : Col → Bool) (p : Cell → Bool) :
    ∀ (cols : List Col) (init : List Bool),
      (cols.foldl (fun m d => if cond d then List.zipWith (fun a b => a && b) m (d.cells.map p) else m) init).length ≤ init.length := by
  intro cols
  induction cols with
  | nil => intro init; exact Nat.le_refl _
  | cons d ds ih =>
    intro init
    rw [List.foldl_cons]
    refine Nat.le_trans (ih _) ?_
    by_cases hc : cond d
    · rw [if_pos hc, List.length_zipWith]
      exact Nat.min_le_left _ _
    · rw [if_neg hc]

theorem combineMask_length_le (cond : Col → Bool) (p : Cell → Bool) (df : DataFrame) :
    (combineMask cond p df).length ≤ df.nrows := by
  unfold combineMask
  refine Nat.le_trans (foldlMask_length_le cond p df.cols _) ?_
  rw [List.length_replicate]

theorem filterByMask_mem {m : List Bool} {d : DataFrame} {c' : Col}
    (h : c' ∈ (filterByMask m d).cols) :
    ∃ c ∈ d.cols, c'.name = c.name ∧ c'.dtype = c.dtype ∧ c'.cells = applyMask m c.cells := by
  unfold filterByMask at h
  simp only [List.mem_map] at h
  obtain ⟨c, hc, rfl⟩ := h
  exact ⟨c, hc, rfl, rfl, rfl⟩

theorem filterByMask_getElem? (m : List Bool) (d : DataFrame) (j : Nat) (c : Col)
    (h : d.cols[j]? = some c) :
    (filterByMask m d).cols[j]? = some { c with cells := applyMask m c.cells } := by
  unfold filterByMask
  simp only [List.getElem?_map, h, Option.map_some']

theorem filterByMask_nrows_le (m : List Bool) (d : DataFrame) (hm : m.length ≤ d.nrows) :
    (filterByMask m d).nrows ≤ d.nrows := by
  unfold filterByMask
  exact Nat.le_trans (List.count_le_length true m) hm

theorem hasCol_of_mem {d : DataFrame} {c : Col} (h : c ∈ d.cols) : hasCol d c.name = true := by
  unfold hasCol
  rw [List.any_eq_true]
  exact ⟨c, h, by simp⟩

end DataClean

namespace DataClean

/-! ### `remove_invalid_rows` structural lemmas -/

theorem geZeroCell_eq_true {x : Cell} (h : geZeroCell x = true) :
    ∃ v : Int, x = Cell.num v ∧ 0 ≤ v := by
  cases x with
  | num v => exact ⟨v, rfl, of_decide_eq_true h⟩
  | str s => simp [geZeroCell] at h
  | na => simp [geZeroCell] at h

theorem dropNegStep_named {d : DataFrame} {n : List Char} {c : Col}
    (h : c ∈ (dropNegStep d n).cols) (hn : c.name = n) :
    ∀ x ∈ c.cells, geZeroCell x = true := by
  unfold dropNegStep at h
  by_cases hd : hasCol d n
  · rw [if_pos hd] at h
    obtain ⟨c0, hc0, hname, hdt, hcells⟩ := filterByMask_mem h
    intro x hx
    rw [hcells] at hx
    obtain ⟨i, hm, hi⟩ := applyMask_getElem? hx
    have hc0n : c0.name = n := by rw [← hname, hn]
    have hcond : (fun cc => cc.name == n) c0 = true := by
      simp only [hc0n, beq_self_eq_true]
    have hmap := combineMask_col_true hc0 hcond hm
    rw [List.getElem?_map, hi, Option.map_some', Option.some.injEq] at hmap
    exact hmap
  · rw [if_neg hd] at h
    intro x hx
    have := hasCol_of_mem h
    rw [hn] at this
    exact absurd this hd

theorem dropNegStep_mem {d : DataFrame} {n : List Char} {c' : Col}
    (h : c' ∈ (dropNegStep d n).cols) :
    ∃ c ∈ d.cols, c'.name = c.name ∧ ∀ x ∈ c'.cells, x ∈ c.cells := by
  unfold dropNegStep at h
  by_cases hd : hasCol d n
  · rw [if_pos hd] at h
    obtain ⟨c, hc, hname, hdt, hcells⟩ := filterByMask_mem h
    refine ⟨c, hc, hname, ?_⟩
    intro x hx
    rw [hcells] at hx
    obtain ⟨i, hm, hi⟩ := applyMask_getElem? hx
    exact List.getElem?_mem hi
  · rw [if_neg hd] at h
    exact ⟨c', h, rfl, fun x hx => hx⟩

theorem rir_pq_nonneg (df : DataFrame) :
    ∀ c ∈ (remove_invalid_rows df).cols,
      (c.name = priceName ∨ c.name = quantityName) →
      ∀ x ∈ c.cells, ∃ v : Int, x = Cell.num v ∧ 0 ≤ v := by
  intro c hc hpq x hx
  have hre : remove_invalid_rows df
      = dropNegStep (dropNegStep (rirDropNa df) priceName) quantityName := rfl
  rw [hre] at hc
  rcases hpq with hp | hq
  · obtain ⟨c4, hc4, hname, hsub⟩ := dropNegStep_mem hc
    have hall := dropNegStep_named hc4 (by rw [← hname]; exact hp)
    exact geZeroCell_eq_true (hall x (hsub x hx))
  · exact geZeroCell_eq_true (dropNegStep_named hc hq x hx)

theorem coerceCol_name (c : Col) : (coerceCol c).name = c.name := by
  unfold coerceCol
  split <;> rfl

theorem coerceCol_cells_length (c : Col) : (coerceCol c).cells.length = c.cells.length := by
  unfold coerceCol
  split
  · exact List.length_map _ _
  · rfl

theorem rirCoerced_getElem? (df : DataFrame) (j : Nat) (cin : Col)
    (h : df.cols[j]? = some cin) :
    (rirCoerced df).cols[j]? = some (coerceCol (fixTypoCol cin)) := by
  unfold rirCoerced fixTypo
  simp only [List.map_map, List.getElem?_map, h, Option.map_some']
  rfl

theorem rirDropNa_getElem? (df : DataFrame) (j : Nat) (c2 : Col)
    (h : (rirCoerced df).cols[j]? = some c2) :
    ∃ c3, (rirDropNa df).cols[j]? = some c3 ∧ c3.name = c2.name ∧ c3.dtype = c2.dtype ∧
      List.Sublist c3.cells c2.cells := by
  unfold rirDropNa
  split
  · exact ⟨c2, h, rfl, rfl, List.Sublist.refl _⟩
  · exact ⟨_, filterByMask_getElem? _ _ j c2 h, rfl, rfl, applyMask_sublist _ _⟩

theorem dropNegStep_getElem? (d : DataFrame) (n : List Char) (j : Nat) (c : Col)
    (h : d.cols[j]? = some c) :
    ∃ c', (dropNegStep d n).cols[j]? = some c' ∧ c'.name = c.name ∧ c'.dtype = c.dtype ∧
      List.Sublist c'.cells c.cells := by
  unfold dropNegStep
  by_cases hd : hasCol d n
  · rw [if_pos hd]
    exact ⟨_, filterByMask_getElem? _ _ j c h, rfl, rfl, applyMask_sublist _ _⟩
  · rw [if_neg hd]
    exact ⟨c, h, rfl, rfl, List.Sublist.refl _⟩

theorem rir_getElem? (df : DataFrame) (j : Nat) (cin : Col)
    (h : df.cols[j]? = some cin) :
    ∃ cout, (remove_invalid_rows df).cols[j]? = some cout ∧
      cout.name = fixTypoName cin.name ∧
      List.Sublist cout.cells (coerceCol (fixTypoCol cin)).cells ∧
      cout.cells.length ≤ cin.cells.length := by
  have h2 := rirCoerced_getElem? df j cin h
  obtain ⟨c3, h3, h3n, h3d, h3s⟩ := rirDropNa_getElem? df j _ h2
  obtain ⟨c4, h4, h4n, h4d, h4s⟩ := dropNegStep_getElem? (rirDropNa df) priceName j c3 h3
  obtain ⟨c5, h5, h5n, h5d, h5s⟩ :=
    dropNegStep_getElem? (dropNegStep (rirDropNa df) priceName) quantityName j c4 h4
  have hre : remove_invalid_rows df
      = dropNegStep (dropNegStep (rirDropNa df) priceName) quantityName := rfl
  refine ⟨c5, by rw [hre]; exact h5, ?_, ?_, ?_⟩
  · rw [h5n, h4n, h3n, coerceCol_name]
    rfl
  · exact ((h5s.trans h4s).trans h3s)
  · refine Nat.le_trans (List.Sublist.length_le ((h5s.trans h4s).trans h3s)) ?_
    rw [coerceCol_cells_length]
    exact Nat.le_refl _

theorem rirDropNa_nrows_le (df : DataFrame) : (rirDropNa df).nrows ≤ df.nrows := by
  unfold rirDropNa
  split
  · exact Nat.le_refl _
  · exact filterByMask_nrows_le _ _ (combineMask_length_le _ _ _)

theorem dropNegStep_nrows_le (d : DataFrame) (n : List Char) :
    (dropNegStep d n).nrows ≤ d.nrows := by
  unfold dropNegStep
  by_cases hd : hasCol d n
  · rw [if_pos hd]
    exact filterByMask_nrows_le _ _ (combineMask_length_le _ _ _)
  · rw [if_neg hd]

theorem rir_nrows_le (df : DataFrame) : (remove_invalid_rows df).nrows ≤ df.nrows := by
  have hre : remove_invalid_rows df
      = dropNegStep (dropNegStep (rirDropNa df) priceName) quantityName := rfl
  rw [hre]
  refine Nat.le_trans (dropNegStep_nrows_le _ _) ?_
  refine Nat.le_trans (dropNegStep_nrows_le _ _) ?_
  exact rirDropNa_nrows_le df

end DataClean

namespace DataClean

/-! ### `handle_missing_values` lemmas -/

theorem fillZeroCell_ne_na (x : Cell) : fillZeroCell x ≠ Cell.na := by
  unfold fillZeroCell
  by_cases hx : x = Cell.na
  · rw [if_pos hx]; intro h; cases h
  · rw [if_neg hx]; exact hx

theorem hmv_getElem? (df : DataFrame) (j : Nat) (cin : Col) (h : df.cols[j]? = some cin) :
    (handle_missing_values df).cols[j]? = some (fillCol cin) := by
  unfold handle_missing_values
  simp only [List.getElem?_map, h, Option.map_some']

theorem fillCol_numeric {c : Col} (h : c.dtype = Dtype.numeric) :
    fillCol c = { c with cells := c.cells.map fillZeroCell } := by
  unfold fillCol
  rw [h]

theorem fillCol_text {c : Col} (h : c.dtype = Dtype.text) :
    fillCol c = { c with cells := ffillGo Cell.na c.cells } := by
  unfold fillCol
  rw [h]

theorem fillCol_cells_length (c : Col) : (fillCol c).cells.length = c.cells.length := by
  unfold fillCol
  cases h : c.dtype
  · exact List.length_map _ _
  · exact ffillGo_length c.cells Cell.na

theorem map_congr_mem {α β : Type} (f g : α → β) (l : List α) (h : ∀ x ∈ l, f x = g x) :
    l.map f = l.map g := by
  induction l with
  | nil => rfl
  | cons c cs ih =>
    rw [List.map_cons, List.map_cons, h c (List.mem_cons_self c cs),
      ih (fun x hx => h x (List.mem_cons_of_mem c hx))]

end DataClean

namespace DataClean

/-! ### Claim theorems -/

/-- C1: after `remove_invalid_rows` returns, every remaining row's value in
every present `price`/`quantity` column is present (not missing), numeric,
and non-negative. -/
theorem claim_C1_invalid_rows_filtered (df : DataFrame) :
    ∀ c ∈ (remove_invalid_rows df).cols,
      (c.name = priceName ∨ c.name = quantityName) →
      ∀ x ∈ c.cells, ∃ v : Int, x = Cell.num v ∧ 0 ≤ v :=
  rir_pq_nonneg df

theorem claim_C1_witness :
    ∃ v : Int, Cell.num 3 = Cell.num v ∧ 0 ≤ v :=
  claim_C1_invalid_rows_filtered examplePriceDf
    { name := "price".data, dtype := Dtype.numeric, cells := [Cell.num 3] }
    (by decide) (Or.inl (by decide)) (Cell.num 3) (by decide)

/-- C2: `handle_missing_values` replaces each missing value of a text-typed
column by the nearest preceding non-missing value of that column (a missing
value with no preceding non-missing value stays missing), and leaves every
other text value unchanged. -/
theorem claim_C2_text_ffill (df : DataFrame) (j : Nat) (cin : Col)
    (h : df.cols[j]? = some cin) (ht : cin.dtype = Dtype.text) :
    ∃ cout, (handle_missing_values df).cols[j]? = some cout ∧
      cout.name = cin.name ∧ cout.cells.length = cin.cells.length ∧
      ∀ (i : Nat) (x : Cell), cin.cells[i]? = some x →
        cout.cells[i]? = some (if x = Cell.na
          then (((cin.cells.take i).filter (fun y => !(y == Cell.na))).getLast?).getD Cell.na
          else x) := by
  refine ⟨{ cin with cells := ffillGo Cell.na cin.cells }, ?_, rfl,
    ffillGo_length cin.cells Cell.na, ?_⟩
  · rw [hmv_getElem? df j cin h, fillCol_text ht]
  · intro i x hx
    exact ffillGo_getElem? cin.cells Cell.na i x hx

theorem claim_C2_witness :
    ∃ cout, (handle_missing_values exampleTextDf).cols[0]? = some cout ∧
      cout.name = exampleTextCol.name ∧ cout.cells.length = exampleTextCol.cells.length ∧
      ∀ (i : Nat) (x : Cell), exampleTextCol.cells[i]? = some x →
        cout.cells[i]? = some (if x = Cell.na
          then (((exampleTextCol.cells.take i).filter (fun y => !(y == Cell.na))).getLast?).getD Cell.na
          else x) :=
  claim_C2_text_ffill exampleTextDf 0 exampleTextCol (by decide) (by decide)

/-- C3: a column literally named `quanitity` is renamed to `quantity` by
`remove_invalid_rows` before coercion, and the missing-value drop and
negative-value filter apply to the renamed column, so all of its surviving
cells are present, numeric and non-negative. -/
theorem claim_C3_typo_rename (df : DataFrame) (j : Nat) (cin : Col)
    (h : df.cols[j]? = some cin) (hn : cin.name = typoName) :
    ∃ cout, (remove_invalid_rows df).cols[j]? = some cout ∧
      cout.name = quantityName ∧
      ∀ x ∈ cout.cells, ∃ v : Int, x = Cell.num v ∧ 0 ≤ v := by
  obtain ⟨cout, h1, h2, _, _⟩ := rir_getElem? df j cin h
  have hname : cout.name = quantityName := by
    rw [h2, hn]
    decide
  refine ⟨cout, h1, hname, ?_⟩
  exact rir_pq_nonneg df cout (List.getElem?_mem h1) (Or.inr hname)

theorem claim_C3_witness :
    ∃ cout, (remove_invalid_rows exampleTypoDf).cols[0]? = some cout ∧
      cout.name = quantityName ∧
      ∀ x ∈ cout.cells, ∃ v : Int, x = Cell.num v ∧ 0 ≤ v :=
  claim_C3_typo_rename exampleTypoDf 0 exampleTypoCol (by decide) (by decide)

/-- C4: after `handle_missing_values`, no numeric-typed column contains a
missing value: each missing cell of a numeric column has been replaced by
`0` (and the others are unchanged). -/
theorem claim_C4_numeric_filled (df : DataFrame) (j : Nat) (cin : Col)
    (h : df.cols[j]? = some cin) (hn : cin.dtype = Dtype.numeric) :
    ∃ cout, (handle_missing_values df).cols[j]? = some cout ∧
      cout.name = cin.name ∧
      cout.cells = cin.cells.map fillZeroCell ∧
      ∀ x ∈ cout.cells, x ≠ Cell.na := by
  refine ⟨{ cin with cells := cin.cells.map fillZeroCell }, ?_, rfl, rfl, ?_⟩
  · rw [hmv_getElem? df j cin h, fillCol_numeric hn]
  · intro x hx
    simp only [List.mem_map] at hx
    obtain ⟨y, hy, rfl⟩ := hx
    exact fillZeroCell_ne_na y

theorem claim_C4_witness :
    ∃ cout, (handle_missing_values exampleNumDf).cols[0]? = some cout ∧
      cout.name = exampleNumCol.name ∧
      cout.cells = exampleNumCol.cells.map fillZeroCell ∧
      ∀ x ∈ cout.cells, x ≠ Cell.na :=
  claim_C4_numeric_filled exampleNumDf 0 exampleNumCol (by decide) (by decide)

/-- C5: every column name produced by `clean_column_names` is the input
name stripped, lowercased, with every space and hyphen replaced by an
underscore; it contains no uppercase letter, no space, no hyphen, and no
leading or trailing whitespace. -/
theorem claim_C5_clean_names (df : DataFrame) (j : Nat) (cin : Col)
    (h : df.cols[j]? = some cin) :
    ∃ cout, (clean_column_names df).cols[j]? = some cout ∧
      cout.name = replaceChar '-' '_' (replaceChar ' ' '_' (pyLower (pyStrip cin.name))) ∧
      (∀ ch ∈ cout.name, isUpperChar ch = false ∧ ch ≠ ' ' ∧ ch ≠ '-') ∧
      (∀ ch, cout.name.head? = some ch → isSpace ch = false) ∧
      (∀ ch, cout.name.getLast? = some ch → isSpace ch = false) := by
  refine ⟨{ cin with name := cleanName cin.name }, ?_, rfl, ?_, ?_, ?_⟩
  · unfold clean_column_names
    simp only [List.getElem?_map, h, Option.map_some']
  · intro ch hch
    obtain ⟨h1, h2, h3, _⟩ := cleanName_char_props hch
    exact ⟨h1, h2, h3⟩
  · intro ch hch; exact cleanName_head?_not_space hch
  · intro ch hch; exact cleanName_getLast?_not_space hch

theorem claim_C5_witness :
    ∃ cout, (clean_column_names exampleNameDf).cols[0]? = some cout ∧
      cout.name = replaceChar '-' '_' (replaceChar ' ' '_' (pyLower (pyStrip exampleNameCol.name))) ∧
      (∀ ch ∈ cout.name, isUpperChar ch = false ∧ ch ≠ ' ' ∧ ch ≠ '-') ∧
      (∀ ch, cout.name.head? = some ch → isSpace ch = false) ∧
      (∀ ch, cout.name.getLast? = some ch → isSpace ch = false) :=
  claim_C5_clean_names exampleNameDf 0 exampleNameCol (by decide)

/-- C6: `clean_column_names` is idempotent: applying it twice produces the
same table (in particular the same column names) as applying it once. -/
theorem claim_C6_clean_names_idem (df : DataFrame) :
    clean_column_names (clean_column_names df) = clean_column_names df := by
  unfold clean_column_names
  simp only [List.map_map]
  congr 1
  refine map_congr_mem _ _ _ ?_
  intro c hc
  simp only [Function.comp]
  rw [cleanName_idem]

/-- C7: when the input path does not reference an existing file, the
pipeline fails with the loader's `FileNotFoundError`, which propagates to
the caller with no output written (an `error` result carries no written
file); when it does exist, the loader returns the table and raises no such
error. -/
theorem claim_C7_missing_input (fs : FileSystem) (raw cleaned : Path) :
    (lookupFile fs.files raw = none →
        clean_pipeline fs raw cleaned = Except.error (PipeError.notFound raw)) ∧
    (∀ df, lookupFile fs.files raw = some df → load_data fs raw = Except.ok df) := by
  constructor
  · intro h
    unfold clean_pipeline load_data
    rw [h]
  · intro df h
    unfold load_data
    rw [h]

theorem claim_C7_witness :
    clean_pipeline emptyFs examplePath outPath = Except.error (PipeError.notFound examplePath) ∧
    load_data oneFs examplePath = Except.ok exampleTextDf :=
  ⟨(claim_C7_missing_input emptyFs examplePath outPath).1 (by decide),
   (claim_C7_missing_input oneFs examplePath outPath).2 exampleTextDf (by decide)⟩

/-- C8: `clean_column_names`, `strip_text_fields` and `handle_missing_values`
preserve the row count (field and per-column cell count); `remove_invalid_rows`
keeps a subset of the rows of its (typo-fixed, coerced-in-place) input, so its
row count is at most the input row count. -/
theorem claim_C8_row_counts (df : DataFrame) (j : Nat) (cin : Col)
    (h : df.cols[j]? = some cin) :
    (clean_column_names df).nrows = df.nrows ∧
    (strip_text_fields df).nrows = df.nrows ∧
    (handle_missing_values df).nrows = df.nrows ∧
    (∃ c1, (clean_column_names df).cols[j]? = some c1 ∧ c1.cells = cin.cells) ∧
    (∃ c2, (strip_text_fields df).cols[j]? = some c2 ∧ c2.cells.length = cin.cells.length) ∧
    (∃ c3, (handle_missing_values df).cols[j]? = some c3 ∧ c3.cells.length = cin.cells.length) ∧
    (remove_invalid_rows df).nrows ≤ df.nrows ∧
    (∃ c4, (remove_invalid_rows df).cols[j]? = some c4 ∧
      List.Sublist c4.cells (coerceCol (fixTypoCol cin)).cells ∧
      c4.cells.length ≤ cin.cells.length) := by
  refine ⟨rfl, rfl, rfl, ?_, ?_, ?_, rir_nrows_le df, ?_⟩
  · refine ⟨{ cin with name := cleanName cin.name }, ?_, rfl⟩
    unfold clean_column_names
    simp only [List.getElem?_map, h, Option.map_some']
  · refine ⟨if cin.dtype = Dtype.text then { cin with cells := cin.cells.map stripCell } else cin,
      ?_, ?_⟩
    · unfold strip_text_fields
      simp only [List.getElem?_map, h, Option.map_some']
    · by_cases ht : cin.dtype = Dtype.text
      · rw [if_pos ht]
        exact List.length_map _ _
      · rw [if_neg ht]
  · exact ⟨fillCol cin, hmv_getElem? df j cin h, fillCol_cells_length cin⟩
  · obtain ⟨cout, h1, h2, h3, h4⟩ := rir_getElem? df j cin h
    exact ⟨cout, h1, h3, h4⟩

theorem claim_C8_witness :
    (clean_column_names exampleMixedDf).nrows = exampleMixedDf.nrows ∧
    (strip_text_fields exampleMixedDf).nrows = exampleMixedDf.nrows ∧
    (handle_missing_values exampleMixedDf).nrows = exampleMixedDf.nrows ∧
    (∃ c1, (clean_column_names exampleMixedDf).cols[0]? = some c1 ∧
      c1.cells = exampleMixedCol.cells) ∧
    (∃ c2, (strip_text_fields exampleMixedDf).cols[0]? = some c2 ∧
      c2.cells.length = exampleMixedCol.cells.length) ∧
    (∃ c3, (handle_missing_values exampleMixedDf).cols[0]? = some c3 ∧
      c3.cells.length = exampleMixedCol.cells.length) ∧
    (remove_invalid_rows exampleMixedDf).nrows ≤ exampleMixedDf.nrows ∧
    (∃ c4, (remove_invalid_rows exampleMixedDf).cols[0]? = some c4 ∧
      List.Sublist c4.cells (coerceCol (fixTypoCol exampleMixedCol)).cells ∧
      c4.cells.length ≤ exampleMixedCol.cells.length) :=
  claim_C8_row_counts exampleMixedDf 0 exampleMixedCol (by decide)

/-- C9: the typo fix of `remove_invalid_rows` is a substring replacement on
every column name, not an exact-name rename: a name that merely contains
`quanitity`, such as `quanitity_ordered`, has that substring rewritten to
`quantity` even though the name is not literally `quanitity`. -/
theorem claim_C9_substring_rename (df : DataFrame) (j : Nat) (cin : Col)
    (h : df.cols[j]? = some cin) :
    (∃ cout, (remove_invalid_rows df).cols[j]? = some cout ∧
      cout.name = replaceSub typoName quantityName cin.name) ∧
    replaceSub typoName quantityName ("quanitity_ordered".data) = "quantity_ordered".data ∧
    ("quanitity_ordered".data ≠ typoName) := by
  refine ⟨?_, by decide, by decide⟩
  obtain ⟨cout, h1, h2, _, _⟩ := rir_getElem? df j cin h
  exact ⟨cout, h1, h2⟩

theorem claim_C9_witness :
    (∃ cout, (remove_invalid_rows exampleMixedDf).cols[0]? = some cout ∧
      cout.name = replaceSub typoName quantityName exampleMixedCol.name) ∧
    replaceSub typoName quantityName ("quanitity_ordered".data) = "quantity_ordered".data ∧
    ("quanitity_ordered".data ≠ typoName) :=
  claim_C9_substring_rename exampleMixedDf 0 exampleMixedCol (by decide)

/-- C10: `save_cleaned_data` fails (with the `FileNotFoundError` raised by
`os.makedirs("")`) for every output path whose directory component is
empty, before writing anything; for a path with a non-empty parent
directory the directory is created as needed and the write succeeds. -/
theorem claim_C10_bare_filename_write_fails (df : DataFrame) (out : Path) :
    (dirname out = [] → save_cleaned_data df out = Except.error (PipeError.notFound [])) ∧
    (dirname out ≠ [] → save_cleaned_data df out = Except.ok (out, df)) := by
  constructor
  · intro h
    unfold save_cleaned_data
    rw [if_pos h, h]
  · intro h
    unfold save_cleaned_data
    rw [if_neg h]

theorem claim_C10_witness :
    save_cleaned_data exampleNumDf ("out.csv".data)
        = Except.error (PipeError.notFound []) ∧
    save_cleaned_data exampleNumDf ("data/out.csv".data)
        = Except.ok ("data/out.csv".data, exampleNumDf) :=
  ⟨(claim_C10_bare_filename_write_fails exampleNumDf ("out.csv".data)).1 (by decide),
   (claim_C10_bare_filename_write_fails exampleNumDf ("data/out.csv".data)).2 (by decide)⟩

end DataClean
